import Mathlib

/-!
Verification of the Segregation Report generation pipeline of the `pcm`
repository (`src/report_processors.py`, class `SegregationReportProcessor`,
together with the column registry `src/CONSTANT_SEGREGATION.py`).

The Python code is shallowly embedded:
* an output row (a Python `dict` keyed by column-name strings) is modelled as
  a partial map `Row := String → Option Value`, where `none` means the key is
  absent from the dict;
* cell values (Python strings / numbers) are modelled by `Value`
  (`VStr` / `VNum`), with machine floats replaced by exact rationals;
* fallible code (statements whose exceptions propagate out of the pass)
  returns `Option`;
* Python's `str.strip`, `str.upper`, string ordering and `float(...)` parsing
  are implemented over `List Char` so that everything evaluates inside the
  kernel.
-/

/-- Python code-point comparison `a <= b` on strings, as lexicographic
comparison of the character lists. -/
def lexLe : List Char → List Char → Bool
  | [], _ => true
  | _ :: _, [] => false
  | a :: as, b :: bs =>
    if a.toNat < b.toNat then true
    else if b.toNat < a.toNat then false
    else lexLe as bs

/-- Characters removed by Python `str.strip()` (ASCII whitespace). -/
def isPyWS (c : Char) : Bool :=
  c.toNat = 32 ∨ c.toNat = 9 ∨ c.toNat = 10 ∨ c.toNat = 11 ∨ c.toNat = 12 ∨ c.toNat = 13

/-- Python `str.strip()`. -/
def pyStrip (s : String) : String :=
  ⟨((s.data.dropWhile isPyWS).reverse.dropWhile isPyWS).reverse⟩

/-- Python `str.upper()` (ASCII letters; the column values involved are ASCII). -/
def pyUpper (s : String) : String :=
  ⟨s.data.map (fun c => if 97 ≤ c.toNat ∧ c.toNat ≤ 122 then Char.ofNat (c.toNat - 32) else c)⟩

/-- A cell value of a report row: a Python string or a number
(floats modelled as exact rationals). -/
inductive Value where
  | VStr (s : String)
  | VNum (q : ℚ)
deriving DecidableEq

open Value

open List

/-- A report row: a Python dict keyed by column-name strings.
`none` models an absent key. -/
def Row := String → Option Value

/-- `row[c] = v` (dict item assignment). -/
def setCol (row : Row) (c : String) (v : Value) : Row :=
  fun c' => if c' = c then some v else row c'

/-- Python `str(value)` for the string case; numbers are rendered as the
integer (or `num/den`) literal. No claim depends on the numeric rendering:
it is only reached when a key field holds a number. -/
def pyStr : Value → String
  | VStr s => s
  | VNum q => if q.den = 1 then toString q.num else toString q.num ++ "/" ++ toString q.den

/-- Python truth-value test `bool(v)` (`""` and `0` are falsy). -/
def pyTruthy : Value → Bool
  | VStr s => s ≠ ""
  | VNum q => q ≠ 0

/-- Python `a == b` between two cell values (strings never equal numbers). -/
def pyEq : Value → Value → Bool
  | VStr a, VStr b => a = b
  | VNum a, VNum b => a = b
  | _, _ => false

/-- Digit list to natural number. -/
def natOfDigits (cs : List Char) : ℕ :=
  cs.foldl (fun n c => n * 10 + (c.toNat - 48)) 0

/-- `float(s)` on a string: optional sign, digits with an optional single
decimal point (the subset of Python float syntax exercised by this
pipeline); `none` models `ValueError`. -/
def pyParseFloat (s : String) : Option ℚ :=
  let cs := (pyStrip s).data
  let (neg, cs) := match cs with
    | '+' :: r => (false, r)
    | '-' :: r => (true, r)
    | r => (false, r)
  let ip := cs.takeWhile (fun c => c ≠ '.')
  let rest := cs.dropWhile (fun c => c ≠ '.')
  let fpOk := match rest with
    | [] => some ([] : List Char)
    | _ :: fp => if fp.all (·.isDigit) ∧ '.' ∉ fp then some fp else none
  match fpOk with
  | none => none
  | some fp =>
    if (ip ≠ [] ∨ fp ≠ []) ∧ ip.all (·.isDigit) then
      let mag : ℚ := (natOfDigits ip : ℚ) + (natOfDigits fp : ℚ) / (10 : ℚ) ^ fp.length
      some (if neg then -mag else mag)
    else none

/-- `float(v)` on a cell value; `none` models `ValueError`/`TypeError`. -/
def pyFloatVal : Value → Option ℚ
  | VNum q => some q
  | VStr s => pyParseFloat s

/- Column registry from `CONSTANT_SEGREGATION.py` (token → column name). -/
namespace Cols

def A : String := "Date"
def B : String := "Clearing Member PAN"
def C : String := "Trading member PAN"
def D : String := "CP Code"
def E : String := "CP PAN"
def F : String := "Client PAN"
def G : String := "Account Type"
def H : String := "Segment Indicator"
def I : String := "UCC Code"
def J : String := "Financial Ledger balance-A in the books of TM for clients and in the books of CM for TM (Pro) and in the books of CM for CP"
def K : String := "Financial Ledger balance (clear)-B in the books of TM for clients and in the books of CM for TM (Pro) and in the books of CM for CP"
def L : String := "Peak Financial Ledger Balance (Clear)-C in the books of TM for clients and in the books of CM for TM (Pro) and in the books of CM for CP"
def M : String := "Bank Guarantee (BG) received by TM from clients and by CM from TM (Pro) and from CPs"
def N : String := "Fixed Deposit Receipt (FDR) received by TM from clients and by CM from TM(Pro) and from CPs"
def O : String := "Approved Securities Cash Component received by TM from clients and by CM from TM(Pro) and from CPs"
def P : String := "Approved Securities Non-cash component received by TM from clients and by CM from TM(Pro) and from CPs"
def Q : String := "Non-Approved Securities received by TM from clients and by CM from TM(Pro) and from CPs"
def R : String := "Value of CC approved Commodities received by TM from clients and by CM from TM(Pro) and from CPs"
def S : String := "Other collaterals received by TM from clients and by CM from TM(Pro) and from CPs"
def T : String := "Credit entry in ledger in lieu of EPI for clients / TM Pro"
def U : String := "Pool Account for clients / TM Pro"
def V : String := "Cash Retained by TM"
def W : String := "Bank Guarantee (BG) Retained by TM"
def X : String := "Fixed Deposit Receipt (FDR) Retained by TM"
def Y : String := "Approved Securities Cash Component Retained by TM"
def Z : String := "Approved Securities Non-cash component Retained by TM"
def AA : String := "Non-Approved Securities Retained by TM"
def AB : String := "Value of CC approved Commodities Retained by TM"
def AC : String := "Other Collaterals Retained by TM"
def AD : String := "Cash placed with CM"
def AE : String := "Bank Guarantee (BG) placed with CM"
def AF : String := "Fixed deposit receipt (FDR) placed with CM"
def AG : String := "Approved Securities Cash Component placed with CM"
def AH : String := "Approved Securities Non-cash component placed with CM"
def AI : String := "Non-Approved Securities placed with CM"
def AJ : String := "Value of CC approved Commodities placed with CM"
def AK : String := "Other Collaterals placed with CM"
def AL : String := "Cash Retained with CM"
def AM : String := "Bank Guarantee (BG) retained with CM"
def AN : String := "Fixed deposit receipt (FDR) retained with CM"
def AO : String := "Approved Securities Cash Component retained with CM"
def AP : String := "Approved Securities Non-cash component retained with CM"
def AQ : String := "Non-Approved Securities retained with CM"
def AR : String := "Value of CC approved Commodities retained with CM"
def AS : String := "Other Collaterals Retained with CM"
def AT : String := "Cash placed with NCL"
def AU : String := "Bank Guarantee (BG) placed with NCL"
def AV : String := "Fixed deposit receipt (FDR) placed with NCL"
def AW : String := "Approved Securities Cash Component placed with NCL"
def AX : String := "Approved Securities Non-cash component placed with NCL"
def AY : String := "Value of CC approved Commodities placed with NCL"
def AZ : String := "MTF /Non MTF indicator/Reason Code"
def BA : String := "Uncleared Receipts"
def BB : String := "Govt Securities / T-bills received by TM from clients and by CM from TM(Pro) and from CPs"
def BC : String := "Govt Securities /T-bills Retained by TM"
def BD : String := "Govt Securities/T-bills placed with CM"
def BE : String := "Govt Securities/T bills retained with CM"
def BF : String := "Govt Securities/T bills placed with NCL"
def BG : String := "Bank Guarantee (BG) Funded portion retained with CM"
def BH : String := "Bank Guarantee (BG) Non funded portion retained with CM"
def BI : String := "Bank Guarantee (BG) Funded portion placed with NCL"
def BJ : String := "Bank Guarantee (BG) Non funded portion placed with NCL"
def BK : String := "Settlement Amount"
def BL : String := "Unclaimed/Unsettled Client Funds"
def BM : String := "Cash Collateral for MTF positions"

end Cols

/-- `segregation_headers` from `CONSTANT_SEGREGATION.py`. -/
def segregation_headers : List String :=
  [Cols.A, Cols.B, Cols.C, Cols.D, Cols.E, Cols.F, Cols.G, Cols.H, Cols.I, Cols.J,
   Cols.K, Cols.L, Cols.M, Cols.N, Cols.O, Cols.P, Cols.Q, Cols.R, Cols.S, Cols.T,
   Cols.U, Cols.V, Cols.W, Cols.X, Cols.Y, Cols.Z, Cols.AA, Cols.AB, Cols.AC, Cols.AD,
   Cols.AE, Cols.AF, Cols.AG, Cols.AH, Cols.AI, Cols.AJ, Cols.AK, Cols.AL, Cols.AM,
   Cols.AN, Cols.AO, Cols.AP, Cols.AQ, Cols.AR, Cols.AS, Cols.AT, Cols.AU, Cols.AV,
   Cols.AW, Cols.AX, Cols.AY, Cols.AZ, Cols.BA, Cols.BB, Cols.BC, Cols.BD, Cols.BE,
   Cols.BF, Cols.BG, Cols.BH, Cols.BI, Cols.BJ, Cols.BK, Cols.BL, Cols.BM]

/-- `segregation_headers[9:]` — the numeric segregation columns that the
normalizer receives (the call site passes `segregation_headers[9:]`). -/
def seg_num_headers : List String := segregation_headers.drop 9

/-! ### `_process_security_pledge_file` (G-Sec pledge lookup builder) -/

/-- One data row of the "Valuation_G-Sec" sheet, restricted to the columns the
builder reads. `post_haircut` is `float(row[POST_HAIRCUT])` with `NaN → 0.0`
already applied (as the source does at ingestion). -/
structure GsecRow where
  cpCode : String
  segment : String
  pledgeType : String
  post_haircut : ℚ

/-- The builder's row filter: `segment == "FNO" and pledge_type == "E-Kuber"`
(both compared after `str(...).strip()`). -/
def pledgeQualifies (r : GsecRow) : Bool :=
  pyStrip r.segment = "FNO" ∧ pyStrip r.pledgeType = "E-Kuber"

/-- One pledge-lookup entry: (CP code, stored segment, accumulated
post-haircut total). Models the dict entry `{H: segment, D: cp_code,
"post_haircut": v}` keyed by `cp_code` (the `D` field merely repeats the key). -/
abbrev PledgeEntry := String × String × ℚ

/-- Dict lookup by CP code (first entry with the given key). -/
def lookupEntry : List PledgeEntry → String → Option PledgeEntry
  | [], _ => none
  | e :: t, c => if e.1 = c then some e else lookupEntry t c

/-- Dict update `lookup[cp]["post_haircut"] += v`, creating the entry first
when `cp` is not yet a key (as the source does). -/
def pledgeInsert (l : List PledgeEntry) (cp seg : String) (v : ℚ) : List PledgeEntry :=
  if (lookupEntry l cp).isSome then
    l.map (fun e => if e.1 = cp then (e.1, e.2.1, e.2.2 + v) else e)
  else l ++ [(cp, seg, v)]

/-- The accumulation loop `for idx, row in gsec_df.iterrows(): ...`. -/
def pledgeFoldAux (rows : List GsecRow) (l : List PledgeEntry) : List PledgeEntry :=
  rows.foldl
    (fun acc r =>
      if pledgeQualifies r then
        pledgeInsert acc (pyStrip r.cpCode) (pyStrip r.segment) r.post_haircut
      else acc)
    l

/-- Floor of a rational, computed on the numerator/denominator. -/
def ratFloor (q : ℚ) : ℤ := Int.fdiv q.num q.den

/-- `Decimal(str(v)).quantize(Decimal("0.01"), rounding=ROUND_HALF_UP)`:
round to 2 decimal places, ties away from zero. -/
def roundHalfUp2 (q : ℚ) : ℚ :=
  if 0 ≤ q then (ratFloor (q * 100 + 1 / 2) : ℚ) / 100
  else -((ratFloor (-q * 100 + 1 / 2) : ℚ) / 100)

/-- `SegregationReportProcessor._process_security_pledge_file`: filter to
FNO / E-Kuber rows, sum `post_haircut` per CP code, then round each total to
2 decimals half-up. -/
def _process_security_pledge_file (rows : List GsecRow) : List PledgeEntry :=
  (pledgeFoldAux rows []).map (fun e => (e.1, e.2.1, roundHalfUp2 e.2.2))

/-- The `post_haircut` value recorded for a CP code in a pledge lookup. -/
def pledgeLookupVal (l : List PledgeEntry) (cp : String) : Option ℚ :=
  (lookupEntry l cp).map (fun e => e.2.2)

/-- Spec-side description: the sum of `post_haircut` over the qualifying rows
of one CP code. -/
def pledgeSumSpec (rows : List GsecRow) (cp : String) : ℚ :=
  ((rows.filter (fun r => pledgeQualifies r && decide (pyStrip r.cpCode = cp))).map
    (·.post_haircut)).sum

/-- Spec-side description: some qualifying row belongs to this CP code. -/
def pledgeHasQual (rows : List GsecRow) (cp : String) : Bool :=
  rows.any (fun r => pledgeQualifies r && decide (pyStrip r.cpCode = cp))

lemma lookupEntry_key {l : List PledgeEntry} {c : String} {e : PledgeEntry}
    (h : lookupEntry l c = some e) : e.1 = c := by
  induction l with
  | nil => simp [lookupEntry] at h
  | cons x t ih =>
    by_cases hx : x.1 = c
    · simp [lookupEntry, hx] at h
      rw [← h]; exact hx
    · simp [lookupEntry, hx] at h
      exact ih h

lemma lookupEntry_map_keyfix (f : PledgeEntry → PledgeEntry)
    (hf : ∀ e, (f e).1 = e.1) (l : List PledgeEntry) (c : String) :
    lookupEntry (l.map f) c = (lookupEntry l c).map f := by
  induction l with
  | nil => simp [lookupEntry]
  | cons x t ih =>
    by_cases hx : x.1 = c
    · simp [lookupEntry, hf, hx]
    · simp [lookupEntry, hf, hx, ih]

lemma lookupEntry_append_single (l : List PledgeEntry) (x : PledgeEntry) (c : String) :
    lookupEntry (l ++ [x]) c =
      match lookupEntry l c with
      | some e => some e
      | none => if x.1 = c then some x else none := by
  induction l with
  | nil => simp [lookupEntry]
  | cons y t ih =>
    by_cases hy : y.1 = c
    · simp [lookupEntry, hy]
    · simp [lookupEntry, hy, ih]

lemma pledgeInsert_lookup (l : List PledgeEntry) (cp seg : String) (v : ℚ) (c : String) :
    pledgeLookupVal (pledgeInsert l cp seg v) c =
      if c = cp then some ((pledgeLookupVal l cp).getD 0 + v) else pledgeLookupVal l c := by
  by_cases hP : (lookupEntry l cp).isSome
  · obtain ⟨e0, he0⟩ := Option.isSome_iff_exists.mp hP
    have hkey := lookupEntry_key he0
    have hmap := lookupEntry_map_keyfix
      (fun e => if e.1 = cp then (e.1, e.2.1, e.2.2 + v) else e)
      (fun e => by by_cases h : e.1 = cp <;> simp [h]) l c
    by_cases hc : c = cp
    · subst hc
      unfold pledgeLookupVal pledgeInsert
      rw [if_pos hP, hmap, he0]
      simp [hkey]
    · unfold pledgeLookupVal pledgeInsert
      rw [if_pos hP, hmap, if_neg hc]
      cases hle : lookupEntry l c with
      | none => simp
      | some e =>
        have he : e.1 = c := lookupEntry_key hle
        have hne : ¬ (e.1 = cp) := by rw [he]; exact hc
        simp [hne]
  · have hnone : lookupEntry l cp = none := by
      cases h : lookupEntry l cp with
      | none => rfl
      | some e => rw [h] at hP; simp at hP
    by_cases hc : c = cp
    · subst hc
      unfold pledgeLookupVal pledgeInsert
      rw [if_neg hP, lookupEntry_append_single, hnone]
      simp
    · have hcp : ¬ (cp = c) := fun h => hc h.symm
      unfold pledgeLookupVal pledgeInsert
      rw [if_neg hP, lookupEntry_append_single, if_neg hc]
      cases hle : lookupEntry l c with
      | none => simp [hcp]
      | some e => simp

lemma pledgeFoldAux_cons (r : GsecRow) (rows : List GsecRow) (l : List PledgeEntry) :
    pledgeFoldAux (r :: rows) l =
      pledgeFoldAux rows
        (if pledgeQualifies r then
          pledgeInsert l (pyStrip r.cpCode) (pyStrip r.segment) r.post_haircut
        else l) := rfl

lemma pledgeSumSpec_cons (r : GsecRow) (rows : List GsecRow) (c : String) :
    pledgeSumSpec (r :: rows) c =
      (if pledgeQualifies r && decide (pyStrip r.cpCode = c) then r.post_haircut else 0) +
        pledgeSumSpec rows c := by
  by_cases h : (pledgeQualifies r && decide (pyStrip r.cpCode = c)) = true <;>
    simp [pledgeSumSpec, List.filter, h]

lemma pledgeHasQual_cons (r : GsecRow) (rows : List GsecRow) (c : String) :
    pledgeHasQual (r :: rows) c =
      ((pledgeQualifies r && decide (pyStrip r.cpCode = c)) || pledgeHasQual rows c) := by
  simp [pledgeHasQual]

lemma pledgeFoldAux_lookup (rows : List GsecRow) :
    ∀ (l : List PledgeEntry) (c : String),
    pledgeLookupVal (pledgeFoldAux rows l) c =
      match pledgeLookupVal l c with
      | some w => some (w + pledgeSumSpec rows c)
      | none => if pledgeHasQual rows c then some (pledgeSumSpec rows c) else none := by
  induction rows with
  | nil =>
    intro l c
    cases h : pledgeLookupVal l c <;>
      simp [pledgeFoldAux, pledgeSumSpec, pledgeHasQual, h]
  | cons r rows ih =>
    intro l c
    rw [pledgeFoldAux_cons]
    by_cases hq : pledgeQualifies r = true
    · by_cases hcp : pyStrip r.cpCode = c
      · have hcc : c = pyStrip r.cpCode := hcp.symm
        rw [if_pos hq, ih, pledgeInsert_lookup, if_pos hcc]
        cases h : pledgeLookupVal l c with
        | none =>
          rw [hcc] at h
          simp only [h, Option.getD_none]
          rw [pledgeHasQual_cons, pledgeSumSpec_cons]
          simp [hq, hcp, zero_add, add_assoc]
        | some w =>
          rw [hcc] at h
          simp only [h, Option.getD_some]
          rw [pledgeSumSpec_cons]
          simp [hq, hcp, add_assoc]
      · have hcc : ¬ (c = pyStrip r.cpCode) := fun h => hcp h.symm
        rw [if_pos hq, ih, pledgeInsert_lookup, if_neg hcc]
        rw [pledgeSumSpec_cons, pledgeHasQual_cons]
        simp [hq, hcp]
    · rw [if_neg hq, ih, pledgeSumSpec_cons, pledgeHasQual_cons]
      simp [hq]

/-- C2: the pledge lookup includes only rows with segment "FNO" and pledge
type "E-Kuber", sums the post-haircut value per CP code, and rounds each CP
code's total to 2 decimal places half-up (away from zero); in particular, for
one CP code with two qualifying rows of post-haircut values 10.004 and
10.001, the lookup value for that CP code equals 20.01. -/
theorem C2_pledge_aggregation_rounding :
    (∀ (rows : List GsecRow) (cp : String),
      pledgeLookupVal (_process_security_pledge_file rows) cp =
        if pledgeHasQual rows cp then some (roundHalfUp2 (pledgeSumSpec rows cp)) else none)
    ∧ pledgeLookupVal (_process_security_pledge_file
        [⟨"X", "FNO", "E-Kuber", 10004/1000⟩, ⟨"X", "FNO", "E-Kuber", 10001/1000⟩]) "X"
        = some (2001/100) := by
  constructor
  · intro rows cp
    have hmap := lookupEntry_map_keyfix (fun e => (e.1, e.2.1, roundHalfUp2 e.2.2))
      (fun e => rfl) (pledgeFoldAux rows []) cp
    have hfold := pledgeFoldAux_lookup rows [] cp
    unfold _process_security_pledge_file pledgeLookupVal
    rw [hmap]
    unfold pledgeLookupVal at hfold
    cases hle : lookupEntry (pledgeFoldAux rows []) cp with
    | none =>
      rw [hle] at hfold
      simp only [lookupEntry, Option.map_none'] at hfold
      by_cases hqual : pledgeHasQual rows cp = true
      · rw [if_pos hqual] at hfold; simp at hfold
      · rw [if_neg hqual]; simp
    | some e =>
      rw [hle] at hfold
      simp only [lookupEntry, Option.map_some'] at hfold
      by_cases hqual : pledgeHasQual rows cp = true
      · rw [if_pos hqual] at hfold
        rw [if_pos hqual]
        simp only [Option.map_some']
        have : e.2.2 = pledgeSumSpec rows cp := by
          injection hfold
        rw [this]
      · rw [if_neg hqual] at hfold; simp at hfold
  · with_unfolding_all rfl

/-! ### `_generate_report_data` (report row generator) -/

/-- One generated row (body of the `for cp, pan_no in zip(...)` loops of
`_generate_report_data`): identity fields, lookup-fed numeric fields with
default 0, the fixed column-duplication rules, and the segment-gated pledge
columns. `seg` is the segment indicator written to the row ("FO"/"CD");
`gateSeg` is the stored-segment value the pledge entry must match
("FNO" for the FO loop, "CDS" for the CD loop). -/
def genRow (formatted_date cp_pan cp pan_no seg gateSeg : String)
    (coll marg : String → Option ℚ) (cv : String → Option (ℚ × ℚ))
    (pledge : List PledgeEntry) : Row :=
  let cvv := (cv cp).getD (0, 0)
  let base : Row := fun c =>
    if c = Cols.A then some (VStr formatted_date)
    else if c = Cols.B then some (VStr cp_pan)
    else if c = Cols.C then some (VStr cp_pan)
    else if c = Cols.D then some (VStr cp)
    else if c = Cols.E then some (VStr pan_no)
    else if c = Cols.F then some (VStr "")
    else if c = Cols.G then some (VStr "C")
    else if c = Cols.H then some (VStr seg)
    else if c = Cols.I then some (VStr "")
    else if c = Cols.J then some (VNum ((coll cp).getD 0))
    else if c = Cols.K then some (VNum ((marg cp).getD 0))
    else if c = Cols.L then some (VNum ((marg cp).getD 0))
    else if c = Cols.O then some (VNum cvv.1)
    else if c = Cols.P then some (VNum cvv.2)
    else if c = Cols.AD then some (VNum ((marg cp).getD 0))
    else if c = Cols.AV then some (VNum ((marg cp).getD 0))
    else if c = Cols.AG then some (VNum cvv.1)
    else if c = Cols.AW then some (VNum cvv.1)
    else if c = Cols.AH then some (VNum cvv.2)
    else if c = Cols.AX then some (VNum cvv.2)
    else none
  if pledge ≠ [] then
    match lookupEntry pledge cp with
    | some e =>
      if e.2.1 = gateSeg then
        setCol (setCol (setCol base Cols.BB (VNum e.2.2)) Cols.BD (VNum e.2.2))
          Cols.BF (VNum e.2.2)
      else base
    | none => base
  else base

/-- `SegregationReportProcessor._generate_report_data`: the FO loop over
`zip(cp_codes_fo, pan_fo)` followed by the CD loop over
`zip(cp_codes_cd, pan_cd)`. -/
def _generate_report_data (formatted_date cp_pan : String)
    (cp_codes_fo pan_fo cp_codes_cd pan_cd : List String)
    (fo_collateral_lookup fo_daily_margin_lookup
      cd_collateral_lookup cd_daily_margin_lookup : String → Option ℚ)
    (cd_collateral_valuation_lookup
      fo_collateral_valuation_lookup : String → Option (ℚ × ℚ))
    (sec_pledge_cp_lookup : List PledgeEntry) : List Row :=
  ((cp_codes_fo.zip pan_fo).map fun p =>
    genRow formatted_date cp_pan p.1 p.2 "FO" "FNO" fo_collateral_lookup
      fo_daily_margin_lookup fo_collateral_valuation_lookup sec_pledge_cp_lookup)
  ++ ((cp_codes_cd.zip pan_cd).map fun p =>
    genRow formatted_date cp_pan p.1 p.2 "CD" "CDS" cd_collateral_lookup
      cd_daily_margin_lookup cd_collateral_valuation_lookup sec_pledge_cp_lookup)

/-! ### AV override pass (the `for data_record in data:` loop after
`_get_master_records`) -/

/-- `(av_record.get(col) or "").strip()`. A missing key or falsy value gives
`""`; a truthy number has no `.strip` (`AttributeError`, caught by the
enclosing `except Exception: continue`), modelled as `none`. -/
def avStripped : Option Value → Option String
  | none => some ""
  | some (VStr s) => some (pyStrip s)
  | some (VNum q) => if q = 0 then some "" else none

/-- `av_record.get("av_value") if "av_value" in av_record else
av_record.get(AV)`. -/
def avValue (av : Row) : Option Value :=
  match av "av_value" with
  | some v => some v
  | none => av Cols.AV

/-- Body of the matched branch: skip `None`/`""`, otherwise
`data_record[AV] = float(raw)` with parse failures swallowed
(`except Exception: pass`). -/
def applyAvRecord (av : Row) (row : Row) : Row :=
  match avValue av with
  | none => row
  | some (VStr "") => row
  | some v =>
    match pyFloatVal v with
    | some x => setCol row Cols.AV (VNum x)
    | none => row

/-- The inner `for av_record in av_records or []:` loop (first match wins;
an `AttributeError` on key extraction aborts the scan leaving the row
unchanged). -/
def avScan (avs : List Row) (row : Row) (cp seg : String) : Row :=
  match avs with
  | [] => row
  | av :: rest =>
    match avStripped (av Cols.D), avStripped (av Cols.H) with
    | some avCp, some avSeg =>
      if avCp = cp ∧ avSeg = seg then applyAvRecord av row
      else avScan rest row cp seg
    | _, _ => row

/-- One iteration of the AV override loop over a generated row: extract
`cp_key`/`seg_key`, skip the row when either is empty, else scan the AV
records. -/
def avPassRow (avs : List Row) (row : Row) : Row :=
  let cp := pyStrip (pyStr ((row Cols.D).getD (VStr "")))
  let seg := pyStrip (pyStr ((row Cols.H).getD (VStr "")))
  if cp = "" ∨ seg = "" then row
  else avScan avs row cp seg

/-! ### `_segregation_data_filter` (row normalizer / sorter) -/

/-- Step 1 cell normalization: `None`, `""`-after-strip, or `"NA"`
(case-insensitive, trimmed) become integer `0`; a missing key defaults to
`0` as well (`row.get(col, 0)`). -/
def normVal : Option Value → Value
  | none => VNum 0
  | some (VStr s) => if pyStrip s = "" ∨ pyUpper (pyStrip s) = "NA" then VNum 0 else VStr s
  | some v => v

/-- Step 1 applied to a row: normalize the segregation-header columns,
copy every other column as-is. -/
def normalizeRow (hdrs : List String) (row : Row) : Row :=
  fun c => if c ∈ hdrs then some (normVal (row c)) else row c

/-- The sort key `str(x.get(seg_col, "")).strip().upper()`. -/
def segKey (row : Row) : String :=
  pyUpper (pyStrip (pyStr ((row Cols.H).getD (VStr ""))))

/-- The comparison underlying `sorted(..., key=segKey)` (Python string
comparison on the keys). -/
def rowLe (a b : Row) : Prop := lexLe (segKey a).data (segKey b).data = true

instance : DecidableRel rowLe := fun a b =>
  inferInstanceAs (Decidable (_ = true))

/-- `v == 0 or v == "0" or str(v).strip() == "0"` for a cell value. -/
def isZeroVal : Value → Bool
  | VNum q => q = 0
  | VStr s => pyStrip s = "0"

/-- `is_all_zero`: every segregation-header column present in the row holds a
zero value (`row.items()` only visits present keys, so a missing column
imposes no constraint). -/
def allZero (hdrs : List String) (row : Row) : Bool :=
  hdrs.all (fun c =>
    match row c with
    | none => true
    | some v => isZeroVal v)

/-- The partition loop appending each row to `zero_rows` or
`non_zero_rows`. Returns `(zero_rows, non_zero_rows)`. -/
def partitionZeroAux (hdrs : List String) (rows : List Row) : List Row × List Row :=
  rows.foldl
    (fun acc r => if allZero hdrs r then (acc.1 ++ [r], acc.2) else (acc.1, acc.2 ++ [r]))
    ([], [])

/-- The final unconditional sentinel writes `row[AZ] = "NA"; row[BL] = "NA"`. -/
def setNA (r : Row) : Row := setCol (setCol r Cols.AZ (VStr "NA")) Cols.BL (VStr "NA")

/-- `SegregationReportProcessor._segregation_data_filter`: normalize, sort by
segment indicator (Python's `sorted` is stable; `List.insertionSort` realizes
exactly that stable sort), move all-zero rows to the end with extra records
between the blocks, then set AZ/BL to "NA" on every row. -/
def _segregation_data_filter (data : List Row) (hdrs : List String) (extras : List Row) :
    List Row :=
  let normalized := data.map (normalizeRow hdrs)
  let seg_sorted := List.insertionSort rowLe normalized
  let zn := partitionZeroAux hdrs seg_sorted
  let final := if extras.isEmpty then zn.2 ++ zn.1 else zn.2 ++ extras ++ zn.1
  final.map setNA

/-! Spec-side descriptions of the filter output used by the ordering claims. -/

/-- The normalized generated rows, in generated order. -/
def normalizedRows (data : List Row) : List Row := data.map (normalizeRow seg_num_headers)

/-- The normalized rows, stably sorted by segment key. -/
def sortedRows (data : List Row) : List Row :=
  List.insertionSort rowLe (normalizedRows data)

/-- The rows with at least one non-zero segregation column, in sorted order. -/
def nonZeroBlock (data : List Row) : List Row :=
  (sortedRows data).filter (fun r => ! allZero seg_num_headers r)

/-- The rows whose segregation columns are all zero, in sorted order. -/
def zeroBlock (data : List Row) : List Row :=
  (sortedRows data).filter (fun r => allZero seg_num_headers r)

lemma lexLe_refl : ∀ (a : List Char), lexLe a a = true
  | [] => rfl
  | c :: cs => by
    unfold lexLe
    simp [Nat.lt_irrefl]
    exact lexLe_refl cs

lemma lexLe_total : ∀ (a b : List Char), lexLe a b = true ∨ lexLe b a = true
  | [], _ => Or.inl rfl
  | _ :: _, [] => Or.inr rfl
  | a :: as, b :: bs => by
    rcases Nat.lt_trichotomy a.toNat b.toNat with h | h | h
    · left; unfold lexLe; rw [if_pos h]
    · have h1 : ¬ a.toNat < b.toNat := by omega
      have h2 : ¬ b.toNat < a.toNat := by omega
      rcases lexLe_total as bs with ih | ih
      · left; unfold lexLe; rw [if_neg h1, if_neg h2]; exact ih
      · right; unfold lexLe; rw [if_neg h2, if_neg h1]; exact ih
    · right; unfold lexLe; rw [if_pos h]

lemma lexLe_trans : ∀ (a b c : List Char),
    lexLe a b = true → lexLe b c = true → lexLe a c = true
  | [], _, _, _, _ => rfl
  | _ :: _, [], _, h1, _ => by simp [lexLe] at h1
  | _ :: _, _ :: _, [], _, h2 => by simp [lexLe] at h2
  | a :: as, b :: bs, c :: cs, h1, h2 => by
    unfold lexLe at h1 h2 ⊢
    by_cases hab : a.toNat < b.toNat
    · by_cases hbc : b.toNat < c.toNat
      · rw [if_pos (Nat.lt_trans hab hbc)]
      · by_cases hcb : c.toNat < b.toNat
        · rw [if_neg hbc, if_pos hcb] at h2; cases h2
        · have hbceq : b.toNat = c.toNat := by omega
          rw [if_pos (hbceq ▸ hab)]
    · by_cases hba : b.toNat < a.toNat
      · rw [if_neg hab, if_pos hba] at h1; cases h1
      · have habeq : a.toNat = b.toNat := by omega
        rw [if_neg hab, if_neg hba] at h1
        by_cases hbc : b.toNat < c.toNat
        · rw [if_pos (habeq ▸ hbc)]
        · by_cases hcb : c.toNat < b.toNat
          · rw [if_neg hbc, if_pos hcb] at h2; cases h2
          · have hbceq : b.toNat = c.toNat := by omega
            have hac1 : ¬ a.toNat < c.toNat := by omega
            have hca1 : ¬ c.toNat < a.toNat := by omega
            rw [if_neg hbc, if_neg hcb] at h2
            rw [if_neg hac1, if_neg hca1]
            exact lexLe_trans as bs cs h1 h2

instance : IsTotal Row rowLe :=
  ⟨fun x y => lexLe_total (segKey x).data (segKey y).data⟩

instance : IsTrans Row rowLe :=
  ⟨fun x y z h1 h2 => lexLe_trans _ _ _ h1 h2⟩

instance : IsRefl Row rowLe := ⟨fun x => lexLe_refl _⟩

lemma partitionZeroAux_spec (hdrs : List String) (rows : List Row) :
    partitionZeroAux hdrs rows =
      (rows.filter (fun r => allZero hdrs r),
       rows.filter (fun r => ! allZero hdrs r)) := by
  have key : ∀ (rows : List Row) (z nz : List Row),
      rows.foldl
        (fun acc r => if allZero hdrs r then (acc.1 ++ [r], acc.2) else (acc.1, acc.2 ++ [r]))
        (z, nz) =
        (z ++ rows.filter (fun r => allZero hdrs r),
         nz ++ rows.filter (fun r => ! allZero hdrs r)) := by
    intro rows
    induction rows with
    | nil => intro z nz; simp
    | cons r t ih =>
      intro z nz
      by_cases h : allZero hdrs r = true
      · simp only [List.foldl_cons, if_pos h, ih, List.filter_cons, h]
        simp
      · simp only [List.foldl_cons, if_neg h, ih, List.filter_cons]
        simp [h]
  simpa using key rows [] []

lemma segKey_setNA (r : Row) : segKey (setNA r) = segKey r := by
  unfold segKey setNA setCol
  rw [if_neg (by decide), if_neg (by decide)]

/-- Filtering by a predicate that fixes the sort key commutes with the
stable insertion sort (stability of the segment sort). -/
lemma filter_orderedInsert_seg {p : Row → Bool} {s : String}
    (hp : ∀ x, p x = true → segKey x = s) (a : Row) (m : List Row) :
    (List.orderedInsert rowLe a m).filter p =
      if p a then a :: m.filter p else m.filter p := by
  rw [List.orderedInsert_eq_take_drop, List.filter_append]
  by_cases hpa : p a = true
  · have htake : (m.takeWhile fun b => decide ¬ rowLe a b).filter p = [] := by
      rw [List.filter_eq_nil_iff]
      intro b hb
      have hnle : ¬ rowLe a b := by
        have := List.mem_takeWhile_imp hb
        simpa using this
      intro hpb
      exact hnle (by unfold rowLe; rw [hp a hpa, hp b hpb]; exact lexLe_refl _)
    rw [if_pos hpa]
    conv_rhs => rw [← List.takeWhile_append_dropWhile (p := fun b => decide ¬ rowLe a b) (l := m)]
    rw [List.filter_append, htake]
    simp [hpa]
  · rw [if_neg hpa]
    conv_rhs => rw [← List.takeWhile_append_dropWhile (p := fun b => decide ¬ rowLe a b) (l := m)]
    rw [List.filter_append]
    simp [hpa]

lemma filter_insertionSort_seg {p : Row → Bool} {s : String}
    (hp : ∀ x, p x = true → segKey x = s) :
    ∀ l : List Row, (List.insertionSort rowLe l).filter p = l.filter p := by
  intro l
  induction l with
  | nil => rfl
  | cons a t ih =>
    rw [List.insertionSort, filter_orderedInsert_seg hp, List.filter_cons]
    by_cases hpa : p a = true <;> simp [hpa, ih]

lemma segregation_data_filter_eq (data extras : List Row) :
    _segregation_data_filter data seg_num_headers extras =
      (nonZeroBlock data ++ extras ++ zeroBlock data).map setNA := by
  unfold nonZeroBlock zeroBlock sortedRows normalizedRows
  simp only [_segregation_data_filter, partitionZeroAux_spec]
  by_cases he : extras.isEmpty
  · have hx : extras = [] := List.isEmpty_iff.mp he
    subst hx
    simp
  · simp [he]

/-- C4: the normalizer/sorter output is exactly the rows with at least one
non-zero segregation column in segment-sorted order, followed by the extra
records in source order, followed by the all-zero rows in segment-sorted
order; both sorted blocks are ascending in the segment key (Python string
comparison) only, and together they contain exactly the normalized input
rows. -/
theorem C4_final_ordering (data extras : List Row) :
    _segregation_data_filter data seg_num_headers extras =
      (nonZeroBlock data ++ extras ++ zeroBlock data).map setNA
    ∧ (nonZeroBlock data).Pairwise rowLe
    ∧ (zeroBlock data).Pairwise rowLe
    ∧ nonZeroBlock data ~ (normalizedRows data).filter (fun r => ! allZero seg_num_headers r)
    ∧ zeroBlock data ~ (normalizedRows data).filter (fun r => allZero seg_num_headers r) := by
  refine ⟨segregation_data_filter_eq data extras, ?_, ?_, ?_, ?_⟩
  · exact List.Pairwise.filter _ (List.sorted_insertionSort rowLe (normalizedRows data))
  · exact List.Pairwise.filter _ (List.sorted_insertionSort rowLe (normalizedRows data))
  · exact (List.perm_insertionSort rowLe (normalizedRows data)).filter _
  · exact (List.perm_insertionSort rowLe (normalizedRows data)).filter _

/-- C9: the segment sort is stable — within the non-zero block and within the
all-zero block, the rows of any fixed segment key appear in exactly the order
they had in the generated (normalized) input; the final output is the
deterministic assembly of these blocks with the extras between them. -/
theorem C9_sort_stability (data extras : List Row) (s : String) :
    _segregation_data_filter data seg_num_headers extras =
      (nonZeroBlock data ++ extras ++ zeroBlock data).map setNA
    ∧ (nonZeroBlock data).filter (fun r => decide (segKey r = s)) =
        (normalizedRows data).filter
          (fun r => decide (segKey r = s) && ! allZero seg_num_headers r)
    ∧ (zeroBlock data).filter (fun r => decide (segKey r = s)) =
        (normalizedRows data).filter
          (fun r => decide (segKey r = s) && allZero seg_num_headers r) := by
  have hp : ∀ (q : Row → Bool) (x : Row),
      (fun r => decide (segKey r = s) && q r) x = true → segKey x = s := by
    intro q x hx
    simp only [Bool.and_eq_true, decide_eq_true_eq] at hx
    exact hx.1
  refine ⟨segregation_data_filter_eq data extras, ?_, ?_⟩
  · unfold nonZeroBlock sortedRows
    rw [List.filter_filter]
    exact filter_insertionSort_seg (hp (fun r => ! allZero seg_num_headers r)) _
  · unfold zeroBlock sortedRows
    rw [List.filter_filter]
    exact filter_insertionSort_seg (hp (fun r => allZero seg_num_headers r)) _

/-- C10: the normalizer/sorter neither drops nor duplicates rows — the output
is a permutation of the normalized input rows plus the extra records (all
carrying the final AZ/BL sentinel), and its length is the number of input
rows plus the number of extras. -/
theorem C10_row_conservation (data extras : List Row) :
    (_segregation_data_filter data seg_num_headers extras).length =
      data.length + extras.length
    ∧ _segregation_data_filter data seg_num_headers extras ~
        (normalizedRows data ++ extras).map setNA := by
  have hz : zeroBlock data =
      (sortedRows data).filter (fun r => ! (! allZero seg_num_headers r)) := by
    unfold zeroBlock
    simp
  have hblocks : nonZeroBlock data ++ zeroBlock data ~ normalizedRows data := by
    rw [hz]
    exact (List.filter_append_perm _ (sortedRows data)).trans
      (List.perm_insertionSort rowLe (normalizedRows data))
  have hperm : nonZeroBlock data ++ extras ++ zeroBlock data ~
      normalizedRows data ++ extras := by
    calc nonZeroBlock data ++ extras ++ zeroBlock data
        = nonZeroBlock data ++ (extras ++ zeroBlock data) := by rw [List.append_assoc]
      _ ~ nonZeroBlock data ++ (zeroBlock data ++ extras) :=
          List.Perm.append_left _ List.perm_append_comm
      _ = nonZeroBlock data ++ zeroBlock data ++ extras := by rw [List.append_assoc]
      _ ~ normalizedRows data ++ extras := hblocks.append_right extras
  constructor
  · rw [segregation_data_filter_eq data extras, List.length_map]
    have hlen := hperm.length_eq
    rw [List.length_append, List.length_append] at hlen ⊢
    rw [hlen]
    simp [normalizedRows]
  · rw [segregation_data_filter_eq data extras]
    exact hperm.map setNA

/-! ### AT adjustment pass (the `for i, data_record in enumerate(data):` loop) -/

/-- `data_record.get(D, '') == at_record.get(D, '') and data_record.get(H, '')
== at_record.get(H, '')`. -/
def atMatches (atr row : Row) : Bool :=
  pyEq ((row Cols.D).getD (VStr "")) ((atr Cols.D).getD (VStr "")) &&
  pyEq ((row Cols.H).getD (VStr "")) ((atr Cols.H).getD (VStr ""))

/-- The inner `for at_record in at_records:` loop on one row.
`at_value = float(at_record.get("at_value", 0))` is evaluated for every
scanned record, so a parse failure raises (`none`) even before a match is
found; on the first match, `data_record[AV] = data_record[AD] - at_value`
requires a numeric `AD` cell (a missing key raises `KeyError`, a string cell
raises `TypeError`, both propagating: `none`). -/
def atScan (at_records : List Row) (row : Row) : Option Row :=
  match at_records with
  | [] => some row
  | atr :: rest =>
    match pyFloatVal ((atr "at_value").getD (VNum 0)) with
    | none => none
    | some t =>
      if atMatches atr row then
        match row Cols.AD with
        | some (VNum a) =>
          some (setCol (setCol row Cols.AV (VNum (a - t))) Cols.AT (VNum t))
        | _ => none
      else atScan rest row

/-- The AT adjustment pass over the position-stable final list (each row is
adjusted in place; an exception on any row aborts the whole pass). -/
def atPass (at_records : List Row) (data : List Row) : Option (List Row) :=
  match data with
  | [] => some []
  | r :: t =>
    match atScan at_records r, atPass at_records t with
    | some r1, some t1 => some (r1 :: t1)
    | _, _ => none

lemma atScan_spec (at_records : List Row) (row out1 : Row)
    (h : atScan at_records row = some out1) :
    (∀ r0, at_records.find? (fun v => atMatches v row) = some r0 →
      ∃ a t, row Cols.AD = some (VNum a)
        ∧ pyFloatVal ((r0 "at_value").getD (VNum 0)) = some t
        ∧ out1 = setCol (setCol row Cols.AV (VNum (a - t))) Cols.AT (VNum t))
    ∧ (at_records.find? (fun v => atMatches v row) = none → out1 = row) := by
  induction at_records with
  | nil =>
    refine ⟨fun r0 hr0 => by simp at hr0, fun _ => ?_⟩
    simpa [atScan] using h.symm
  | cons atr rest ih =>
    unfold atScan at h
    cases hparse : pyFloatVal ((atr "at_value").getD (VNum 0)) with
    | none => rw [hparse] at h; cases h
    | some t =>
      rw [hparse] at h
      dsimp only at h
      by_cases hm : atMatches atr row = true
      · rw [if_pos hm] at h
        cases had : row Cols.AD with
        | none => rw [had] at h; cases h
        | some v =>
          cases v with
          | VStr s => rw [had] at h; cases h
          | VNum a =>
            rw [had] at h
            dsimp only at h
            injection h with h
            have hfind : List.find? (fun v => atMatches v row) (atr :: rest) = some atr := by
              simp [List.find?, hm]
            constructor
            · intro r0 hr0
              rw [hfind] at hr0
              injection hr0 with hr0
              subst hr0
              exact ⟨a, t, rfl, hparse, h.symm⟩
            · intro hnone
              rw [hfind] at hnone
              cases hnone
      · rw [if_neg hm] at h
        have hfind : List.find? (fun v => atMatches v row) (atr :: rest) =
            List.find? (fun v => atMatches v row) rest := by
          simp [List.find?, hm]
        rw [hfind]
        exact ih h

lemma atScan_preserves (at_records : List Row) (row out1 : Row) (c : String)
    (hc1 : c ≠ Cols.AV) (hc2 : c ≠ Cols.AT)
    (h : atScan at_records row = some out1) : out1 c = row c := by
  induction at_records with
  | nil => simpa [atScan] using congrArg (fun r => r c) (Option.some.inj h).symm
  | cons atr rest ih =>
    unfold atScan at h
    cases hparse : pyFloatVal ((atr "at_value").getD (VNum 0)) with
    | none => rw [hparse] at h; cases h
    | some t =>
      rw [hparse] at h
      dsimp only at h
      by_cases hm : atMatches atr row = true
      · rw [if_pos hm] at h
        cases had : row Cols.AD with
        | none => rw [had] at h; cases h
        | some v =>
          cases v with
          | VStr s => rw [had] at h; cases h
          | VNum a =>
            rw [had] at h
            dsimp only at h
            injection h with h
            rw [← h]
            simp [setCol, hc1, hc2]
      · rw [if_neg hm] at h
        exact ih h

lemma atPass_forall₂ (at_records : List Row) :
    ∀ (data out : List Row), atPass at_records data = some out →
      List.Forall₂ (fun row orow => atScan at_records row = some orow) data out := by
  intro data
  induction data with
  | nil =>
    intro out h
    unfold atPass at h
    injection h with h
    subst h
    exact List.Forall₂.nil
  | cons r t ih =>
    intro out h
    unfold atPass at h
    cases h1 : atScan at_records r with
    | none => rw [h1] at h; cases h
    | some r1 =>
      rw [h1] at h
      cases h2 : atPass at_records t with
      | none => rw [h2] at h; dsimp only at h; cases h
      | some t1 =>
        rw [h2] at h
        dsimp only at h
        injection h with h
        subst h
        exact List.Forall₂.cons h1 (ih t1 h2)

/-- C5: for every row of the (position-stable) final list, if some AT record
matches the row's (CP code, segment) then after the AT pass the row holds
token AV = token AD minus the FIRST matching record's `at_value` and token
AT = that `at_value`; rows without a matching record are unchanged, and the
pass preserves both length and position (the i-th output row corresponds to
the i-th input row). -/
theorem C5_at_adjustment (at_records data out : List Row)
    (h : atPass at_records data = some out) :
    out.length = data.length
    ∧ List.Forall₂ (fun row orow =>
        (∀ r0, at_records.find? (fun v => atMatches v row) = some r0 →
          ∃ a t, row Cols.AD = some (VNum a)
            ∧ pyFloatVal ((r0 "at_value").getD (VNum 0)) = some t
            ∧ orow = setCol (setCol row Cols.AV (VNum (a - t))) Cols.AT (VNum t))
        ∧ (at_records.find? (fun v => atMatches v row) = none → orow = row))
        data out := by
  have hf := atPass_forall₂ at_records data out h
  exact ⟨hf.length_eq.symm, hf.imp (fun {row orow} hro => atScan_spec _ _ _ hro)⟩

/-- AT override record {CP=Y, Segment=FO, at_value=30} as stored by the
master-records editor. -/
def atRecY : Row := fun c =>
  if c = Cols.D then some (VStr "Y")
  else if c = Cols.H then some (VStr "FO")
  else if c = "at_value" then some (VStr "30")
  else none

/-- A final-list row for (CP=Y, Segment=FO) with token AD = 100. -/
def rowY : Row := fun c =>
  if c = Cols.D then some (VStr "Y")
  else if c = Cols.H then some (VStr "FO")
  else if c = Cols.AD then some (VNum 100)
  else if c = Cols.AV then some (VNum 100)
  else none

/-- The row after the AT pass: token AV = 100 − 30 = 70, token AT = 30. -/
def rowY_adj : Row := setCol (setCol rowY Cols.AV (VNum 70)) Cols.AT (VNum 30)

/-- C5 witness: the AT pass on the concrete row (AD = 100) with the concrete
record (at_value = 30) succeeds and satisfies the adjustment contract. -/
theorem C5_at_adjustment_witness :
    ([rowY_adj].length = [rowY].length)
    ∧ List.Forall₂ (fun row orow =>
        (∀ r0, [atRecY].find? (fun v => atMatches v row) = some r0 →
          ∃ a t, row Cols.AD = some (VNum a)
            ∧ pyFloatVal ((r0 "at_value").getD (VNum 0)) = some t
            ∧ orow = setCol (setCol row Cols.AV (VNum (a - t))) Cols.AT (VNum t))
        ∧ ([atRecY].find? (fun v => atMatches v row) = none → orow = row))
        [rowY] [rowY_adj] :=
  C5_at_adjustment [atRecY] [rowY] [rowY_adj] (by with_unfolding_all rfl)

/-! ### C1: evaluation of the AV override loop on generated rows -/

/-- AV override record {Account Type="C", Segment="FO", av_value="42"} with
exactly the keys the master-records editor stores (`ui_components.py`
`_add_record_to_table`): no "CP Code" key. -/
def avRecC_FO : Row := fun c =>
  if c = Cols.G then some (VStr "C")
  else if c = Cols.H then some (VStr "FO")
  else if c = "av_value" then some (VStr "42")
  else none

/-- A generated report row with the given CP code, account type "C",
segment "FO" and token AV = 5. -/
def genRowCF (cp : String) : Row := fun c =>
  if c = Cols.D then some (VStr cp)
  else if c = Cols.G then some (VStr "C")
  else if c = Cols.H then some (VStr "FO")
  else if c = Cols.AV then some (VNum 5)
  else none

/-- C1: the AV override loop matches `av_record.get("CP Code")` — a key AV
records do not carry — against the row's CP code, so the override record
{Account Type="C", Segment="FO", av_value=42} is applied to NEITHER of two
generated rows that both have account type "C" and segment "FO" (their token
AV stays 5 instead of becoming 42), contradicting the claimed
(account type, segment)-wide application. -/
theorem C1_av_override_never_applied :
    (avPassRow [avRecC_FO] (genRowCF "CP1")) Cols.AV = some (VNum 5)
    ∧ (avPassRow [avRecC_FO] (genRowCF "CP2")) Cols.AV = some (VNum 5)
    ∧ genRowCF "CP1" Cols.D ≠ genRowCF "CP2" Cols.D
    ∧ genRowCF "CP1" Cols.G = genRowCF "CP2" Cols.G
    ∧ genRowCF "CP1" Cols.H = genRowCF "CP2" Cols.H
    ∧ avRecC_FO Cols.G = genRowCF "CP1" Cols.G
    ∧ avRecC_FO Cols.H = genRowCF "CP1" Cols.H
    ∧ (some (VNum 5) : Option Value) ≠ some (VNum 42) := by
  refine ⟨by decide, by decide, by decide, rfl, rfl, rfl, rfl, by decide⟩

/-! ### `_get_master_records` (Master Override Store load) -/

/-- `SegregationReportProcessor._get_master_records` (default flags), as a
function of the observable state of `master_records.json`: the outer `Option`
is file existence (`os.path.exists`), the inner `Option` is whether
`json.load` + key extraction succeeded (`except Exception: pass` keeps both
lists empty), and a parsed file yields its `AV_Records` and `AT_Records`
lists (`.get(..., [])` defaults already folded in). -/
def _get_master_records : Option (Option (List Row × List Row)) → List Row × List Row
  | none => ([], [])
  | some none => ([], [])
  | some (some recs) => recs

/-- C8: when the master override JSON is absent, the load returns empty
AV/AT record lists without raising, and the downstream passes with empty
override lists leave every row unchanged (the run proceeds exactly as if no
overrides were configured). -/
theorem C8_master_records_absent :
    _get_master_records none = ([], [])
    ∧ (∀ data : List Row, data.map (avPassRow []) = data)
    ∧ (∀ data : List Row, atPass [] data = some data) := by
  refine ⟨rfl, ?_, ?_⟩
  · intro data
    have h : ∀ r : Row, avPassRow [] r = r := by
      intro r
      simp only [avPassRow]
      by_cases hc : pyStrip (pyStr ((r Cols.D).getD (VStr ""))) = "" ∨
          pyStrip (pyStr ((r Cols.H).getD (VStr ""))) = ""
      · rw [if_pos hc]
      · rw [if_neg hc]
        rfl
    rw [show avPassRow [] = id from funext h, List.map_id]
  · intro data
    induction data with
    | nil => rfl
    | cons r t ih =>
      unfold atPass
      rw [show atScan [] r = some r from rfl, ih]

/-! ### `_santom_file_working` (SANTOM merge pass) -/

/-- `row[c] = v` with an `Option` right-hand side (copying a possibly-absent
source cell; the source raises `KeyError` when the column is genuinely
missing — the claims below always hypothesise column presence). -/
def setColOpt (row : Row) (c : String) (v : Option Value) : Row :=
  fun c' => if c' = c then v else row c'

/-- `not row.get(c)` / `pd.isna(row.get(c))`: a missing key, `""`, or numeric
`0` counts as blank (Python falsiness). -/
def blankOpt : Option Value → Bool
  | none => true
  | some (VStr s) => s = ""
  | some (VNum q) => q = 0

/-- The per-row backfill: set AZ to "NA" if blank, then BL likewise. -/
def backfillNA (r : Row) : Row :=
  let r1 := if blankOpt (r Cols.AZ) then setCol r Cols.AZ (VStr "NA") else r
  if blankOpt (r1 Cols.BL) then setCol r1 Cols.BL (VStr "NA") else r1

/-- `float(row[AD])`: `none` when the cell is absent (`float(None)` raises
`TypeError`, caught by the same `except`) or fails to parse. -/
def santomADParse (srow : Row) : Option ℚ :=
  match srow Cols.AD with
  | some v => pyFloatVal v
  | none => none

/-- `float(cash_with_ncl or 0)`: a falsy scalar becomes 0, otherwise the
scalar is parsed. -/
def santomCashParse (cash : Value) : Option ℚ :=
  if pyTruthy cash then pyFloatVal cash else some 0

/-- One appended SANTOM record: copy all santom columns, then apply the
account-type-"P" branch (`balance = float(row[AD]) - float(cash_with_ncl or
0)` into AV with 0 on `ValueError`/`TypeError`, AW ← AG, AX ← AH, AT ← the
raw scalar) or the plain column-copy branch. -/
def mkSantomRecord (cash : Value) (cols : List String) (srow : Row) : Row :=
  let base : Row := fun c => if c ∈ cols then srow c else none
  if Cols.G ∈ cols ∧ pyEq ((srow Cols.G).getD (VStr "")) (VStr "P") = true then
    if Cols.AD ∈ cols then
      let bal : ℚ :=
        match santomADParse srow, santomCashParse cash with
        | some a, some cq => a - cq
        | _, _ => 0
      setColOpt
        (setColOpt
          (setColOpt (setCol base Cols.AV (VNum bal)) Cols.AW (srow Cols.AG))
          Cols.AX (srow Cols.AH))
        Cols.AT (some cash)
    else base
  else
    let r1 := if Cols.AD ∈ cols then setColOpt base Cols.AV (srow Cols.AD) else base
    let r2 := if Cols.AG ∈ cols then setColOpt r1 Cols.AW (srow Cols.AG) else r1
    if Cols.AH ∈ cols then setColOpt r2 Cols.AX (srow Cols.AH) else r2

/-- `SegregationReportProcessor._santom_file_working`: append one record per
SANTOM row; after each append the inner `for row in data:` loop backfills
AZ/BL wherever blank on ALL rows accumulated so far. -/
def _santom_file_working (data : List Row) (cash : Value) (cols : List String)
    (srows : List Row) : List Row :=
  srows.foldl
    (fun acc srow => ((acc ++ [mkSantomRecord cash cols srow]).map backfillNA))
    data

lemma setCol_same (row : Row) (c : String) (v : Value) : (setCol row c v) c = some v :=
  if_pos rfl

lemma setCol_ne (row : Row) {c' c : String} (h : c' ≠ c) (v : Value) :
    (setCol row c v) c' = row c' :=
  if_neg h

lemma setColOpt_same (row : Row) (c : String) (v : Option Value) :
    (setColOpt row c v) c = v :=
  if_pos rfl

lemma setColOpt_ne (row : Row) {c' c : String} (h : c' ≠ c) (v : Option Value) :
    (setColOpt row c v) c' = row c' :=
  if_neg h

lemma backfillNA_fixed {r : Row} (hAZ : blankOpt (r Cols.AZ) = false)
    (hBL : blankOpt (r Cols.BL) = false) : backfillNA r = r := by
  simp [backfillNA, hAZ, hBL]

lemma backfillNA_AZ (r : Row) :
    (backfillNA r) Cols.AZ =
      (if blankOpt (r Cols.AZ) then some (VStr "NA") else r Cols.AZ) := by
  have key : ∀ rr : Row,
      rr Cols.AZ = (if blankOpt (r Cols.AZ) = true then some (VStr "NA") else r Cols.AZ) →
      (if blankOpt (rr Cols.BL) = true then setCol rr Cols.BL (VStr "NA") else rr) Cols.AZ =
        (if blankOpt (r Cols.AZ) = true then some (VStr "NA") else r Cols.AZ) := by
    intro rr hrr
    by_cases h2 : blankOpt (rr Cols.BL) = true
    · rw [if_pos h2, setCol_ne rr (by decide)]
      exact hrr
    · rw [if_neg h2]
      exact hrr
  show (if blankOpt ((if blankOpt (r Cols.AZ) = true then setCol r Cols.AZ (VStr "NA")
          else r) Cols.BL) = true
        then setCol (if blankOpt (r Cols.AZ) = true then setCol r Cols.AZ (VStr "NA") else r)
          Cols.BL (VStr "NA")
        else (if blankOpt (r Cols.AZ) = true then setCol r Cols.AZ (VStr "NA") else r))
      Cols.AZ = _
  apply key
  by_cases h1 : blankOpt (r Cols.AZ) = true
  · rw [if_pos h1, if_pos h1, setCol_same]
  · rw [if_neg h1, if_neg h1]

lemma backfillNA_BL (r : Row) :
    (backfillNA r) Cols.BL =
      (if blankOpt (r Cols.BL) then some (VStr "NA") else r Cols.BL) := by
  have hr1 : (if blankOpt (r Cols.AZ) = true then setCol r Cols.AZ (VStr "NA") else r)
      Cols.BL = r Cols.BL := by
    by_cases h1 : blankOpt (r Cols.AZ) = true
    · rw [if_pos h1, setCol_ne r (by decide)]
    · rw [if_neg h1]
  show (if blankOpt ((if blankOpt (r Cols.AZ) = true then setCol r Cols.AZ (VStr "NA")
          else r) Cols.BL) = true
        then setCol (if blankOpt (r Cols.AZ) = true then setCol r Cols.AZ (VStr "NA") else r)
          Cols.BL (VStr "NA")
        else (if blankOpt (r Cols.AZ) = true then setCol r Cols.AZ (VStr "NA") else r))
      Cols.BL = _
  rw [hr1]
  by_cases h2 : blankOpt (r Cols.BL) = true
  · rw [if_pos h2, if_pos h2, setCol_same]
  · rw [if_neg h2, if_neg h2, hr1]

lemma backfillNA_nonblank (r : Row) :
    blankOpt ((backfillNA r) Cols.AZ) = false
    ∧ blankOpt ((backfillNA r) Cols.BL) = false := by
  constructor
  · rw [backfillNA_AZ]
    by_cases h : blankOpt (r Cols.AZ) = true
    · rw [if_pos h]
      rfl
    · rw [if_neg h]
      simpa using h
  · rw [backfillNA_BL]
    by_cases h : blankOpt (r Cols.BL) = true
    · rw [if_pos h]
      rfl
    · rw [if_neg h]
      simpa using h

lemma santom_structure (cash : Value) (cols : List String) :
    ∀ (srows : List Row) (data : List Row),
      (∀ r ∈ data, blankOpt (r Cols.AZ) = false ∧ blankOpt (r Cols.BL) = false) →
      _santom_file_working data cash cols srows =
        data ++ srows.map (fun srow => backfillNA (mkSantomRecord cash cols srow)) := by
  intro srows
  induction srows with
  | nil => intro data _; simp [_santom_file_working]
  | cons s t ih =>
    intro data hdata
    have hstep : (data ++ [mkSantomRecord cash cols s]).map backfillNA =
        data ++ [backfillNA (mkSantomRecord cash cols s)] := by
      rw [List.map_append]
      congr 1
      · exact List.map_congr_left (fun r hr => backfillNA_fixed (hdata r hr).1 (hdata r hr).2)
          |>.trans (List.map_id data)
    have hdata2 : ∀ r ∈ data ++ [backfillNA (mkSantomRecord cash cols s)],
        blankOpt (r Cols.AZ) = false ∧ blankOpt (r Cols.BL) = false := by
      intro r hr
      rcases List.mem_append.mp hr with h | h
      · exact hdata r h
      · rcases List.mem_singleton.mp h with rfl
        exact backfillNA_nonblank _
    calc _santom_file_working data cash cols (s :: t)
        = _santom_file_working (data ++ [backfillNA (mkSantomRecord cash cols s)])
            cash cols t := by
          unfold _santom_file_working
          rw [List.foldl_cons, hstep]
      _ = data ++ [backfillNA (mkSantomRecord cash cols s)]
            ++ t.map (fun srow => backfillNA (mkSantomRecord cash cols srow)) :=
          ih _ hdata2
      _ = data ++ (s :: t).map (fun srow => backfillNA (mkSantomRecord cash cols srow)) := by
          simp

lemma ite_setColOpt_ne {c : String} (rr : Row) (cond : Prop) (inst : Decidable cond)
    (cc : String) (v : Option Value) (hne : c ≠ cc) :
    (@ite _ cond inst (setColOpt rr cc v) rr) c = rr c := by
  by_cases hc : cond
  · rw [if_pos hc, setColOpt_ne _ hne]
  · rw [if_neg hc]

/-- `mkSantomRecord` writes only AV/AW/AX/AT: every other column is the plain
copy of the santom row (restricted to the santom file's columns). -/
lemma mkSantomRecord_untouched (cash : Value) (cols : List String) (srow : Row)
    {c : String} (h1 : c ≠ Cols.AV) (h2 : c ≠ Cols.AW) (h3 : c ≠ Cols.AX)
    (h4 : c ≠ Cols.AT) :
    (mkSantomRecord cash cols srow) c = (if c ∈ cols then srow c else none) := by
  unfold mkSantomRecord
  by_cases hp : (Cols.G ∈ cols ∧ pyEq ((srow Cols.G).getD (VStr "")) (VStr "P") = true)
  · rw [if_pos hp]
    by_cases had : Cols.AD ∈ cols
    · rw [if_pos had]
      rw [setColOpt_ne _ h4, setColOpt_ne _ h3, setColOpt_ne _ h2, setCol_ne _ h1]
    · rw [if_neg had]
  · rw [if_neg hp]
    rw [ite_setColOpt_ne _ _ _ _ _ h3, ite_setColOpt_ne _ _ _ _ _ h2,
      ite_setColOpt_ne _ _ _ _ _ h1]

lemma filter_output_NA (data extras : List Row) :
    ∀ r ∈ _segregation_data_filter data seg_num_headers extras,
      r Cols.AZ = some (VStr "NA") ∧ r Cols.BL = some (VStr "NA") := by
  intro r hr
  rw [segregation_data_filter_eq] at hr
  rcases List.mem_map.mp hr with ⟨r0, _, rfl⟩
  constructor
  · show (setCol (setCol r0 Cols.AZ (VStr "NA")) Cols.BL (VStr "NA")) Cols.AZ = _
    rw [setCol_ne _ (by decide), setCol_same]
  · exact setCol_same _ _ _

lemma atPass_output_NA (at_records : List Row) :
    ∀ (l out : List Row),
      (∀ r ∈ l, r Cols.AZ = some (VStr "NA") ∧ r Cols.BL = some (VStr "NA")) →
      atPass at_records l = some out →
      ∀ r ∈ out, r Cols.AZ = some (VStr "NA") ∧ r Cols.BL = some (VStr "NA") := by
  intro l
  induction l with
  | nil =>
    intro out _ h r hr
    unfold atPass at h
    injection h with h
    subst h
    cases hr
  | cons x t ih =>
    intro out hl h r hr
    unfold atPass at h
    cases h1 : atScan at_records x with
    | none => rw [h1] at h; cases h
    | some x1 =>
      rw [h1] at h
      cases h2 : atPass at_records t with
      | none => rw [h2] at h; dsimp only at h; cases h
      | some t1 =>
        rw [h2] at h
        dsimp only at h
        injection h with h
        subst h
        rcases List.mem_cons.mp hr with rfl | hmem
        · have hx := hl x (List.mem_cons_self _ _)
          exact ⟨(atScan_preserves at_records x r Cols.AZ (by decide) (by decide) h1).trans hx.1,
            (atScan_preserves at_records x r Cols.BL (by decide) (by decide) h1).trans hx.2⟩
        · exact ih t1 (fun r' hr' => hl r' (List.mem_cons_of_mem _ hr')) h2 r hmem

/-- C3 (amended): after the full pipeline, every row coming out of the
normalizer/AT stage — generated rows AND extra-record rows — has tokens AZ
and BL equal to "NA"; a SANTOM-appended row, however, is only backfilled:
its AZ (resp. BL) is "NA" exactly when its source value is missing, the empty
string, or numeric zero, and otherwise KEEPS the source value (the
unconditional overwrite claimed for SANTOM rows does not happen). -/
theorem C3_sentinel_columns (data extras at_records out : List Row) (cash : Value)
    (cols : List String) (srows : List Row)
    (h : atPass at_records (_segregation_data_filter data seg_num_headers extras) = some out) :
    _santom_file_working out cash cols srows =
      out ++ srows.map (fun srow => backfillNA (mkSantomRecord cash cols srow))
    ∧ (∀ r ∈ out, r Cols.AZ = some (VStr "NA") ∧ r Cols.BL = some (VStr "NA"))
    ∧ (∀ srow : Row,
        (backfillNA (mkSantomRecord cash cols srow)) Cols.AZ =
          (if blankOpt ((mkSantomRecord cash cols srow) Cols.AZ) then some (VStr "NA")
           else (mkSantomRecord cash cols srow) Cols.AZ)
        ∧ (backfillNA (mkSantomRecord cash cols srow)) Cols.BL =
          (if blankOpt ((mkSantomRecord cash cols srow) Cols.BL) then some (VStr "NA")
           else (mkSantomRecord cash cols srow) Cols.BL))
    ∧ (∀ srow : Row,
        (mkSantomRecord cash cols srow) Cols.AZ =
          (if Cols.AZ ∈ cols then srow Cols.AZ else none)
        ∧ (mkSantomRecord cash cols srow) Cols.BL =
          (if Cols.BL ∈ cols then srow Cols.BL else none)) := by
  have hNA : ∀ r ∈ out, r Cols.AZ = some (VStr "NA") ∧ r Cols.BL = some (VStr "NA") :=
    atPass_output_NA at_records _ out (filter_output_NA data extras) h
  refine ⟨santom_structure cash cols srows out (fun r hr => ?_), hNA,
    fun srow => ⟨backfillNA_AZ _, backfillNA_BL _⟩,
    fun srow =>
      ⟨mkSantomRecord_untouched cash cols srow (by decide) (by decide) (by decide) (by decide),
       mkSantomRecord_untouched cash cols srow (by decide) (by decide) (by decide) (by decide)⟩⟩
  have hx := hNA r hr
  rw [hx.1, hx.2]
  exact ⟨rfl, rfl⟩

/-- A SANTOM source row with account type "C" and a NON-blank AZ value "X". -/
def santomRowX : Row := fun c =>
  if c = Cols.G then some (VStr "C")
  else if c = Cols.AZ then some (VStr "X")
  else none

/-- C3 counterexample: running the pipeline (empty generated data, no AT
records) and merging one SANTOM row whose AZ column holds "X" yields a final
output whose row has token AZ = "X", not "NA" — the claimed unconditional
sentinel fails for SANTOM-appended rows. -/
theorem C3_counterexample :
    (((_santom_file_working
        ((atPass [] (_segregation_data_filter [] seg_num_headers [])).getD [])
        (VStr "0") [Cols.G, Cols.AZ] [santomRowX]).get? 0).bind
      (fun r => r Cols.AZ)) = some (VStr "X")
    ∧ (some (VStr "X") : Option Value) ≠ some (VStr "NA") := by
  refine ⟨rfl, by decide⟩

/-- C3 witness: the amended theorem applied at a concrete pipeline run (empty
generated data, one SANTOM row). -/
theorem C3_sentinel_columns_witness :
    _santom_file_working [] (VStr "0") [Cols.G, Cols.AZ] [santomRowX] =
      [] ++ [santomRowX].map
        (fun srow => backfillNA (mkSantomRecord (VStr "0") [Cols.G, Cols.AZ] srow)) :=
  (C3_sentinel_columns [] [] [] [] (VStr "0") [Cols.G, Cols.AZ] [santomRowX] rfl).1

/-- C7: for a SANTOM row with account type "P" (and the AD column present in
the santom file), the appended record holds token AV = santom AD minus the
operator-entered scalar when both parse, AV = 0 when either operand fails to
parse (the exception is caught locally, the record is still appended and the
run is not aborted), token AW copied from santom AG, token AX from santom AH,
and token AT set to the raw scalar itself. -/
theorem C7_santom_account_type_P (data : List Row) (cash : Value) (cols : List String)
    (srow : Row) (hG : Cols.G ∈ cols) (hP : srow Cols.G = some (VStr "P"))
    (hAD : Cols.AD ∈ cols) :
    (∀ a cq, santomADParse srow = some a → santomCashParse cash = some cq →
      (mkSantomRecord cash cols srow) Cols.AV = some (VNum (a - cq)))
    ∧ (santomADParse srow = none → (mkSantomRecord cash cols srow) Cols.AV = some (VNum 0))
    ∧ (santomCashParse cash = none → (mkSantomRecord cash cols srow) Cols.AV = some (VNum 0))
    ∧ (mkSantomRecord cash cols srow) Cols.AW = srow Cols.AG
    ∧ (mkSantomRecord cash cols srow) Cols.AX = srow Cols.AH
    ∧ (mkSantomRecord cash cols srow) Cols.AT = some cash
    ∧ _santom_file_working data cash cols [srow] =
        (data ++ [mkSantomRecord cash cols srow]).map backfillNA := by
  have hcond : Cols.G ∈ cols ∧ pyEq ((srow Cols.G).getD (VStr "")) (VStr "P") = true :=
    ⟨hG, by rw [hP]; rfl⟩
  have hrec : mkSantomRecord cash cols srow =
      setColOpt
        (setColOpt
          (setColOpt
            (setCol (fun c => if c ∈ cols then srow c else none) Cols.AV
              (VNum (match santomADParse srow, santomCashParse cash with
                | some a, some cq => a - cq
                | _, _ => 0)))
            Cols.AW (srow Cols.AG))
          Cols.AX (srow Cols.AH))
        Cols.AT (some cash) := by
    unfold mkSantomRecord
    rw [if_pos hcond, if_pos hAD]
  have hAV : (mkSantomRecord cash cols srow) Cols.AV =
      some (VNum (match santomADParse srow, santomCashParse cash with
        | some a, some cq => a - cq
        | _, _ => 0)) := by
    rw [hrec, setColOpt_ne _ (by decide), setColOpt_ne _ (by decide),
      setColOpt_ne _ (by decide), setCol_same]
  refine ⟨?_, ?_, ?_, ?_, ?_, ?_, rfl⟩
  · intro a cq ha hcq
    rw [hAV, ha, hcq]
  · intro ha
    rw [hAV, ha]
  · intro hcq
    rw [hAV, hcq]
    cases ha : santomADParse srow <;> rfl
  · rw [hrec, setColOpt_ne _ (by decide), setColOpt_ne _ (by decide), setColOpt_same]
  · rw [hrec, setColOpt_ne _ (by decide), setColOpt_same]
  · rw [hrec, setColOpt_same]

/-- SANTOM row: account type "P", unparsable AD cell "abc", AG = 7, AH = 8. -/
def santomRowP : Row := fun c =>
  if c = Cols.G then some (VStr "P")
  else if c = Cols.AD then some (VStr "abc")
  else if c = Cols.AG then some (VNum 7)
  else if c = Cols.AH then some (VNum 8)
  else none

/-- Columns of the concrete SANTOM file. -/
def santomColsP : List String := [Cols.G, Cols.AD, Cols.AG, Cols.AH]

/-- C7 witness: the SANTOM "P" branch applied to a concrete row whose AD cell
fails numeric parsing (AV defaults to 0, the record is still appended). -/
theorem C7_santom_account_type_P_witness :
    (∀ a cq, santomADParse santomRowP = some a →
      santomCashParse (VStr "30") = some cq →
      (mkSantomRecord (VStr "30") santomColsP santomRowP) Cols.AV = some (VNum (a - cq)))
    ∧ (santomADParse santomRowP = none →
      (mkSantomRecord (VStr "30") santomColsP santomRowP) Cols.AV = some (VNum 0))
    ∧ (santomCashParse (VStr "30") = none →
      (mkSantomRecord (VStr "30") santomColsP santomRowP) Cols.AV = some (VNum 0))
    ∧ (mkSantomRecord (VStr "30") santomColsP santomRowP) Cols.AW = santomRowP Cols.AG
    ∧ (mkSantomRecord (VStr "30") santomColsP santomRowP) Cols.AX = santomRowP Cols.AH
    ∧ (mkSantomRecord (VStr "30") santomColsP santomRowP) Cols.AT = some (VStr "30")
    ∧ _santom_file_working [] (VStr "30") santomColsP [santomRowP] =
        ([] ++ [mkSantomRecord (VStr "30") santomColsP santomRowP]).map backfillNA :=
  C7_santom_account_type_P [] (VStr "30") santomColsP santomRowP
    (by decide) rfl (by decide)

/-! ### C6: end-to-end single-row scenario -/

/-- Collateral lookup {"ABC123": 500}. -/
def fo_coll6 : String → Option ℚ := fun c => if c = "ABC123" then some 500 else none

/-- Margin lookup {"ABC123": 200}. -/
def fo_marg6 : String → Option ℚ := fun c => if c = "ABC123" then some 200 else none

/-- Valuation lookup {"ABC123": {CashEquivalent: 50, NonCash: 10}}. -/
def fo_val6 : String → Option (ℚ × ℚ) := fun c => if c = "ABC123" then some (50, 10) else none

/-- An empty single-value lookup. -/
def emptyLookupQ : String → Option ℚ := fun _ => none

/-- An empty valuation lookup. -/
def emptyLookupV : String → Option (ℚ × ℚ) := fun _ => none

/-- The pipeline on the C6 scenario: FO master [(ABC123, PAN001)], empty CD
master, the three FO lookups above, no pledge, no AV records (the master
store is absent), no extra records. -/
def pipe6 : List Row :=
  _segregation_data_filter
    ((_generate_report_data "08-09-2025" "AAACM1234C" ["ABC123"] ["PAN001"] [] []
        fo_coll6 fo_marg6 emptyLookupQ emptyLookupQ emptyLookupV fo_val6 []).map
      (avPassRow []))
    seg_num_headers []

/-- C6: the pipeline output for the single-CP scenario is exactly one row
with segment "FO", CP code "ABC123", token J=500, K=200, L=200, O=50, P=10,
AD=200, AV=200, AG=50, AW=50, AH=10, AX=10, AZ="NA", BL="NA". -/
theorem C6_end_to_end_single_row :
    pipe6.length = 1
    ∧ (pipe6.get? 0).bind (fun r => r Cols.H) = some (VStr "FO")
    ∧ (pipe6.get? 0).bind (fun r => r Cols.D) = some (VStr "ABC123")
    ∧ (pipe6.get? 0).bind (fun r => r Cols.J) = some (VNum 500)
    ∧ (pipe6.get? 0).bind (fun r => r Cols.K) = some (VNum 200)
    ∧ (pipe6.get? 0).bind (fun r => r Cols.L) = some (VNum 200)
    ∧ (pipe6.get? 0).bind (fun r => r Cols.O) = some (VNum 50)
    ∧ (pipe6.get? 0).bind (fun r => r Cols.P) = some (VNum 10)
    ∧ (pipe6.get? 0).bind (fun r => r Cols.AD) = some (VNum 200)
    ∧ (pipe6.get? 0).bind (fun r => r Cols.AV) = some (VNum 200)
    ∧ (pipe6.get? 0).bind (fun r => r Cols.AG) = some (VNum 50)
    ∧ (pipe6.get? 0).bind (fun r => r Cols.AW) = some (VNum 50)
    ∧ (pipe6.get? 0).bind (fun r => r Cols.AH) = some (VNum 10)
    ∧ (pipe6.get? 0).bind (fun r => r Cols.AX) = some (VNum 10)
    ∧ (pipe6.get? 0).bind (fun r => r Cols.AZ) = some (VStr "NA")
    ∧ (pipe6.get? 0).bind (fun r => r Cols.BL) = some (VStr "NA") := by
  refine ⟨rfl, rfl, rfl, rfl, rfl, rfl, rfl, rfl, rfl, rfl, rfl, rfl, rfl, rfl, rfl, rfl⟩
